import Mathlib

/-!
Verification development for the albatross regression-model framework.

The development shallowly embeds the C++ core into Lean:

* `model.h` : `RegressionDataset`, `RegressionFold`, the `RegressionModel`
  fit/predict wrappers with their asserts (asserts become `Except.error`),
  the default marginal/mean derivations, `operator==`, `fit_and_predict`;
* `cross_validation_utils.hpp` : `get_predictions`,
  `concatenate_mean_predictions`, `concatenate_marginal_predictions`,
  `cross_validated_scores`;
* the tuning loop of `test_tune.cc` (whose implementation header is not part
  of the excerpt) is modelled from the specification.

Real values are embedded as `ℚ`, Eigen vectors as `List ℚ`, matrices as lists
of rows, `std::map` as association lists in iteration (key) order, and a
fatal `assert` as an `Except.error` carrying the asserted expression.
-/

namespace Albatross

/-- Marginal distribution collaborator: a mean vector together with the
per-element variance vector (the diagonal of its covariance). -/
structure MarginalDist where
  mean : List ℚ
  variance : List ℚ
deriving DecidableEq, Repr

/-- Size of a marginal distribution (`Distribution::size()`): the number of
elements of its mean vector. -/
def MarginalDist.size (d : MarginalDist) : ℕ := d.mean.length

/-- Joint distribution collaborator: a mean vector plus a full covariance
matrix, stored as a list of rows. -/
structure JointDist where
  mean : List ℚ
  cov : List (List ℚ)
deriving DecidableEq, Repr

/-- Size of a joint distribution (`Distribution::size()`). -/
def JointDist.size (d : JointDist) : ℕ := d.mean.length

/-- Diagonal of a matrix (Eigen's `.diagonal()`): entry `i` is row `i`,
column `i`. -/
def diagonal (m : List (List ℚ)) : List ℚ :=
  (List.range m.length).map (fun i => (m.getD i []).getD i 0)

/-- A `RegressionDataset` from `model.h`: a feature sequence, a target
distribution, and string metadata. -/
structure RegressionDataset (F : Type) where
  features : List F
  targets : MarginalDist
  metadata : List (String × String)
deriving DecidableEq

/-- Modelled from the spec: the size of a dataset (`RegressionDataset::size`,
whose definition is not in the excerpted sources) is the length of its feature
sequence, equal to the target length by the dataset invariant. -/
def RegressionDataset.size {F : Type} (d : RegressionDataset F) : ℕ :=
  d.features.length

/-- A `RegressionFold` from `model.h`: train and test datasets, a fold name,
and the original-dataset positions covered by the test set. -/
structure RegressionFold (F : Type) where
  train_dataset : RegressionDataset F
  test_dataset : RegressionDataset F
  name : String
  test_indices : List ℕ
deriving DecidableEq

/-- The `RegressionModel::fit` wrapper from `model.h`: asserts that the
feature sequence is non-empty and that feature and target lengths agree, then
runs the implementation `fit_` and marks the model as fit.  The model state is
`Option S`: `some s` is a model that has been fit with fit state `s` (the
wrapper sets `has_been_fit_ = true` in the same step that `fit_` stores its
state), `none` is an unfit model. -/
def RegressionModel.fit {F S : Type} (fitImpl : List F → MarginalDist → S)
    (features : List F) (targets : MarginalDist) : Except String (Option S) :=
  if features.length = 0 then
    .error "assert failed: features.size() > 0"
  else if features.length ≠ targets.size then
    .error "assert failed: features.size() == targets.size()"
  else
    .ok (some (fitImpl features targets))

/-- The fit flag of an embedded model state (`has_been_fit_` in `model.h`):
true exactly when a fit state is present. -/
def has_been_fit {S : Type} (st : Option S) : Bool := st.isSome

/-- The joint `RegressionModel::predict` overload from `model.h`: asserts the
model has been fit, runs the implementation `predict_`, and asserts the
returned distribution has as many elements as the query features. -/
def RegressionModel.predict_joint {F S : Type}
    (predictImpl : S → List F → JointDist)
    (st : Option S) (features : List F) : Except String JointDist :=
  match st with
  | none => .error "assert failed: has_been_fit()"
  | some s =>
    let preds := predictImpl s features
    if preds.mean.length = features.length then .ok preds
    else .error "assert failed: preds.mean.size() == features.size()"

/-- The marginal `RegressionModel::predict` overload from `model.h`. -/
def RegressionModel.predict_marginal {F S : Type}
    (predictImpl : S → List F → MarginalDist)
    (st : Option S) (features : List F) : Except String MarginalDist :=
  match st with
  | none => .error "assert failed: has_been_fit()"
  | some s =>
    let preds := predictImpl s features
    if preds.mean.length = features.length then .ok preds
    else .error "assert failed: preds.mean.size() == features.size()"

/-- The mean `RegressionModel::predict` overload from `model.h`. -/
def RegressionModel.predict_mean {F S : Type}
    (predictImpl : S → List F → List ℚ)
    (st : Option S) (features : List F) : Except String (List ℚ) :=
  match st with
  | none => .error "assert failed: has_been_fit()"
  | some s =>
    let preds := predictImpl s features
    if preds.length = features.length then .ok preds
    else .error "assert failed: preds.size() == features.size()"

/-- The default `predict_marginal_` from `model.h`, used when a concrete
model provides only a joint prediction: it computes the full joint
distribution and keeps its mean and the diagonal of its covariance. -/
def predict_marginal_default {F S : Type}
    (predictImpl : S → List F → JointDist) (s : S) (features : List F) :
    MarginalDist :=
  let full_distribution := predictImpl s features
  ⟨full_distribution.mean, diagonal full_distribution.cov⟩

/-- The default `predict_mean_` from `model.h`: the mean vector of the full
joint distribution. -/
def predict_mean_default {F S : Type}
    (predictImpl : S → List F → JointDist) (s : S) (features : List F) :
    List ℚ :=
  (predictImpl s features).mean

/-- The externally observable data of a `RegressionModel` used by
`operator==` in `model.h`: name, parameter map, and fit flag. -/
structure ModelInfo where
  name : String
  params : List (String × ℚ)
  has_been_fit : Bool
deriving DecidableEq, Repr

/-- The virtual `RegressionModel::operator==` from `model.h`: it asserts that
the left-hand model has not been fit, then compares names, parameter maps and
fit flags. -/
def model_operator_eq (a b : ModelInfo) : Except String Bool :=
  if a.has_been_fit then .error "assert failed: !has_been_fit()"
  else
    .ok (decide (a.name = b.name) && decide (a.params = b.params) &&
      (a.has_been_fit == b.has_been_fit))

/-- The default `RegressionModel::fit_and_predict` from `model.h`: fit on the
training data, then predict (joint fidelity) on the test features, exactly as
the source writes it. -/
def fit_and_predict {F S : Type} (fitImpl : List F → MarginalDist → S)
    (predictImpl : S → List F → JointDist)
    (train_features : List F) (train_targets : MarginalDist)
    (test_features : List F) : Except String JointDist :=
  match RegressionModel.fit fitImpl train_features train_targets with
  | .error e => .error e
  | .ok st => RegressionModel.predict_joint predictImpl st test_features

/-- The composition the spec describes for `fit_and_predict`: a `fit` call
followed by a `predict` call on the resulting model state. -/
def fit_then_predict {F S : Type} (fitImpl : List F → MarginalDist → S)
    (predictImpl : S → List F → JointDist)
    (train_features : List F) (train_targets : MarginalDist)
    (test_features : List F) : Except String JointDist :=
  (RegressionModel.fit fitImpl train_features train_targets).bind
    (fun st => RegressionModel.predict_joint predictImpl st test_features)

/-- A model usable by the cross-validation utilities
(`cross_validation_utils.hpp`): `fit` produces a fit-model handle from a
dataset and `predict` produces a prediction of type `P` from a handle and
query features. -/
structure CVModel (F Fit P : Type) where
  fit : RegressionDataset F → Fit
  predict : Fit → List F → P

/-- The `get_predictions` function from `cross_validation_utils.hpp`, exactly
as written in the source: for each fold it fits on the fold's `train_dataset`
and predicts on the fold's `train_dataset.features`. -/
def get_predictions {F Fit P : Type} (model : CVModel F Fit P)
    (folds : List (String × RegressionFold F)) : List (String × P) :=
  folds.map (fun kv =>
    (kv.1, model.predict (model.fit kv.2.train_dataset)
      kv.2.train_dataset.features))

/-- The `cross_validated_scores` function from `cross_validation_utils.hpp`:
for each fold, in fold order, assert that the prediction stored under the
fold's key has the fold's test-dataset size, score it against the fold's test
targets with the metric, and combine the per-fold scalars into one vector
(the grouped `apply` and `combine` are modelled from the spec: fold scores
are collected in indexer iteration order and concatenated, not aggregated). -/
def cross_validated_scores {F P : Type} (psize : P → ℕ)
    (metric : P → MarginalDist → ℚ)
    (folds : List (String × RegressionFold F))
    (predictions : List (String × P)) : Except String (List ℚ) :=
  match folds with
  | [] => .ok []
  | (k, fold) :: rest =>
    match List.lookup k predictions with
    | none => .error "predictions.at(key): key not found"
    | some p =>
      if psize p = fold.test_dataset.size then
        match cross_validated_scores psize metric rest predictions with
        | .ok scores => .ok (metric p fold.test_dataset.targets :: scores)
        | .error e => .error e
      else
        .error "assert failed: fold.test_dataset.size() == predictions.at(key).size()"

/-- Modelled from the spec: `set_subset` (not in the excerpted sources)
scatters `values[i]` into the output vector at position `indices[i]` for each
`i`, the scatter step of reassembly. -/
def set_subset (values : List ℚ) (indices : List ℕ) (out : List ℚ) :
    List ℚ :=
  match indices, values with
  | [], _ => out
  | _ :: _, [] => out
  | i :: is, v :: vs => set_subset vs is (out.set i v)

/-- Modelled from the spec: `dataset_size_from_indexer` (not in the excerpted
sources) returns the parent dataset size, which for a partition-correct
indexer is the sum of the group sizes. -/
def dataset_size_from_indexer (indexer : List (String × List ℕ)) : ℕ :=
  (indexer.map (fun kv => kv.2.length)).sum

/-- Number of times reassembly writes original row `j`: its number of
occurrences among all of the indexer's index groups. -/
def write_count (indexer : List (String × List ℕ)) (j : ℕ) : ℕ :=
  ((indexer.map (fun kv => kv.2)).flatten).count j

/-- Scatter a list of (indices, values) groups into an output vector, one
`set_subset` per group, in group order. -/
def scatter (pairs : List (List ℕ × List ℚ)) (out : List ℚ) : List ℚ :=
  match pairs with
  | [] => out
  | (is, vs) :: rest => scatter rest (set_subset vs is out)

/-- The loop of `concatenate_mean_predictions`: for each indexer entry, in
order, look up the fold's mean vector (`means.at`), assert its size matches
the entry's index count, scatter it into the output, and accumulate
`number_filled`. -/
def fill_means (means : List (String × List ℚ)) :
    List (String × List ℕ) → List ℚ → Except String (List ℚ × ℕ)
  | [], pred => .ok (pred, 0)
  | (k, idxs) :: rest, pred =>
    match List.lookup k means with
    | none => .error "means.at(key): key not found"
    | some v =>
      if v.length = idxs.length then
        match fill_means means rest (set_subset v idxs pred) with
        | .ok (p, c) => .ok (p, idxs.length + c)
        | .error e => .error e
      else .error "assert failed: means.at(key).size() == indices.size()"

/-- The `concatenate_mean_predictions` function from
`cross_validation_utils.hpp`: assert the indexer and the prediction map have
the same size, scatter every fold's predicted means back into original order,
and assert that the number of filled rows equals the dataset size. -/
def concatenate_mean_predictions (indexer : List (String × List ℕ))
    (means : List (String × List ℚ)) : Except String (List ℚ) :=
  if indexer.length = means.length then
    match fill_means means indexer
        (List.replicate (dataset_size_from_indexer indexer) 0) with
    | .ok (pred, number_filled) =>
      if number_filled = dataset_size_from_indexer indexer then .ok pred
      else .error "assert failed: number_filled == n"
    | .error e => .error e
  else .error "assert failed: indexer.size() == preds.size()"

/-- The loop of `concatenate_marginal_predictions`: for each indexer entry,
in order, look up the fold's distribution (`preds.at`), assert its size
matches the entry's index count, scatter its mean and its covariance diagonal
into the output mean and variance vectors, and accumulate `number_filled`. -/
def fill_marginals (preds : List (String × JointDist)) :
    List (String × List ℕ) → List ℚ × List ℚ →
    Except String ((List ℚ × List ℚ) × ℕ)
  | [], mv => .ok (mv, 0)
  | (k, idxs) :: rest, mv =>
    match List.lookup k preds with
    | none => .error "preds.at(key): key not found"
    | some d =>
      if d.size = idxs.length then
        match fill_marginals preds rest
            (set_subset d.mean idxs mv.1,
             set_subset (diagonal d.cov) idxs mv.2) with
        | .ok (p, c) => .ok (p, idxs.length + c)
        | .error e => .error e
      else .error "assert failed: preds.at(key).size() == indices.size()"

/-- The `concatenate_marginal_predictions` function from
`cross_validation_utils.hpp`: assert the indexer and the prediction map have
the same size, scatter every fold's predicted means and covariance diagonals
back into original order, assert that the number of filled rows equals the
dataset size, and return the result as a marginal distribution. -/
def concatenate_marginal_predictions (indexer : List (String × List ℕ))
    (preds : List (String × JointDist)) : Except String MarginalDist :=
  if indexer.length = preds.length then
    match fill_marginals preds indexer
        (List.replicate (dataset_size_from_indexer indexer) 0,
         List.replicate (dataset_size_from_indexer indexer) 0) with
    | .ok (mv, number_filled) =>
      if number_filled = dataset_size_from_indexer indexer then
        .ok ⟨mv.1, mv.2⟩
      else .error "assert failed: number_filled == n"
    | .error e => .error e
  else .error "assert failed: indexer.size() == preds.size()"

/-- A prior attached to a hyperparameter: a validity predicate on values and
a log-likelihood contribution. -/
structure Prior where
  is_valid : ℚ → Bool
  log_likelihood : ℚ → ℚ

/-- Modelled from the spec: the `PositivePrior` used by
`test_tune.test_with_prior_bounds` (its definition is not in the excerpted
sources) accepts exactly the strictly positive values. -/
def PositivePrior : Prior :=
  ⟨fun v => decide (0 < v), fun _ => 0⟩

/-- Modelled from the spec: `params_are_valid` (not in the excerpted sources)
holds when the candidate vector has one value per prior and every value
satisfies its prior's `is_valid`. -/
def params_are_valid (priors : List Prior) (params : List ℚ) : Bool :=
  params.length = priors.length &&
    (priors.zip params).all (fun pv => pv.1.is_valid pv.2)

/-- Modelled from the spec: the tuning objective (the tuning header is not in
the excerpted sources).  If any parameter falls outside its prior's valid
support the objective is invalid — `none`, the embedding of a NaN objective —
rather than a fatal error; otherwise it is the cross-validated metric value
minus the summed prior log likelihoods. -/
def tune_objective (priors : List Prior) (cvMetric : List ℚ → ℚ)
    (params : List ℚ) : Option ℚ :=
  if params_are_valid priors params then
    some (cvMetric params -
      ((priors.zip params).map (fun pv => pv.1.log_likelihood pv.2)).sum)
  else none

/-- Modelled from the spec: one step of the optimization loop.  A proposal
with an invalid (`none`) objective is reported back as a rejected candidate
and the loop continues with its state unchanged; a valid proposal replaces
the incumbent when its objective is lower (the engine minimizes). -/
def tune_best (obj : List ℚ → Option ℚ) (state : List ℚ × Option ℚ)
    (cand : List ℚ) : List ℚ × Option ℚ :=
  match obj cand with
  | none => state
  | some s =>
    match state.2 with
    | none => (cand, some s)
    | some b => if s < b then (cand, some s) else state

/-- Modelled from the spec: the tuning loop.  The external optimizer proposes
candidate vectors in sequence; the engine evaluates the objective on each,
rejecting invalid ones, and terminates with the best parameter vector found,
starting from the initial vector. -/
def tune (priors : List Prior) (cvMetric : List ℚ → ℚ) (init : List ℚ)
    (proposals : List (List ℚ)) : List ℚ :=
  (proposals.foldl (tune_best (tune_objective priors cvMetric))
    (init, tune_objective priors cvMetric init)).1

/-- A trivial concrete model for the cross-validation utilities: fitting
stores nothing and predicting returns one zero per query feature. -/
def zeroModel : CVModel ℚ Unit (List ℚ) :=
  ⟨fun _ => (), fun _ features => features.map (fun _ => 0)⟩

/-- A concrete two-fold partition of a three-row dataset with rows
`10, 20, 30`: fold `a` tests row 0 and trains on rows 1 and 2, fold `b`
tests rows 1 and 2 and trains on row 0. -/
def demo_folds : List (String × RegressionFold ℚ) :=
  [("a", ⟨⟨[20, 30], ⟨[2, 3], [1, 1]⟩, []⟩, ⟨[10], ⟨[1], [1]⟩, []⟩,
      "a", [0]⟩),
   ("b", ⟨⟨[10], ⟨[1], [1]⟩, []⟩, ⟨[20, 30], ⟨[2, 3], [1, 1]⟩, []⟩,
      "b", [1, 2]⟩)]

/-! Helper lemmas about the scatter step of reassembly. -/

theorem set_subset_length (vs : List ℚ) (is : List ℕ) (out : List ℚ) :
    (set_subset vs is out).length = out.length := by
  induction is generalizing vs out with
  | nil => cases vs <;> simp [set_subset]
  | cons i is ih =>
    cases vs with
    | nil => simp [set_subset]
    | cons v vs => simp [set_subset, ih]

theorem set_subset_getElem?_not_mem {j : ℕ} (vs : List ℚ) {is : List ℕ}
    (out : List ℚ) (hj : j ∉ is) :
    (set_subset vs is out)[j]? = out[j]? := by
  induction is generalizing vs out with
  | nil => cases vs <;> simp [set_subset]
  | cons i is ih =>
    cases vs with
    | nil => simp [set_subset]
    | cons v vs =>
      have hji : j ∉ is := fun h => hj (List.mem_cons_of_mem _ h)
      have hij : i ≠ j := fun h => hj (h ▸ List.mem_cons_self _ _)
      simp only [set_subset]
      rw [ih vs _ hji, List.getElem?_set_ne hij]

theorem set_subset_getElem?_hit {is : List ℕ} {vs out : List ℚ}
    (hnd : is.Nodup) (hlen : vs.length = is.length)
    (hbound : ∀ i ∈ is, i < out.length)
    (p : ℕ) (hp : p < is.length) :
    (set_subset vs is out)[is[p]]? = vs[p]? := by
  induction is generalizing vs out p with
  | nil => exact absurd hp (by simp)
  | cons i is ih =>
    cases vs with
    | nil => simp at hlen
    | cons v vs =>
      simp only [set_subset]
      cases p with
      | zero =>
        have hni : i ∉ is := (List.nodup_cons.mp hnd).1
        have hi : i < out.length := hbound i (List.mem_cons_self _ _)
        simp only [List.getElem_cons_zero]
        rw [set_subset_getElem?_not_mem vs _ hni,
          List.getElem?_set_self hi]
        simp
      | succ p =>
        simp only [List.getElem_cons_succ, List.getElem?_cons_succ]
        refine ih (List.nodup_cons.mp hnd).2 (by simpa using hlen) ?_ p
          (by simpa using hp)
        intro i2 h2
        have := hbound i2 (List.mem_cons_of_mem _ h2)
        simpa using this

theorem scatter_length (pairs : List (List ℕ × List ℚ)) (out : List ℚ) :
    (scatter pairs out).length = out.length := by
  induction pairs generalizing out with
  | nil => rfl
  | cons pr rest ih =>
    obtain ⟨is, vs⟩ := pr
    simp only [scatter]
    rw [ih, set_subset_length]

theorem scatter_getElem?_not_mem {j : ℕ} (pairs : List (List ℕ × List ℚ))
    (out : List ℚ) (hj : ∀ pr ∈ pairs, j ∉ pr.1) :
    (scatter pairs out)[j]? = out[j]? := by
  induction pairs generalizing out with
  | nil => rfl
  | cons pr rest ih =>
    obtain ⟨is, vs⟩ := pr
    simp only [scatter]
    rw [ih _ (fun pr h => hj pr (List.mem_cons_of_mem _ h))]
    exact set_subset_getElem?_not_mem vs out (hj (is, vs) (List.mem_cons_self _ _))

theorem scatter_getElem?_hit (pairs : List (List ℕ × List ℚ))
    (out : List ℚ)
    (hnd : ((pairs.map Prod.fst).flatten).Nodup)
    (hlen : ∀ pr ∈ pairs, pr.2.length = pr.1.length)
    (hbound : ∀ pr ∈ pairs, ∀ i ∈ pr.1, i < out.length) :
    ∀ pr ∈ pairs, ∀ p, (hp : p < pr.1.length) →
      (scatter pairs out)[pr.1[p]]? = pr.2[p]? := by
  induction pairs generalizing out with
  | nil => intro pr h; exact absurd h (by simp)
  | cons hd rest ih =>
    obtain ⟨is, vs⟩ := hd
    rw [List.map_cons, List.flatten_cons] at hnd
    have hdisj : List.Disjoint is ((rest.map Prod.fst).flatten) :=
      List.disjoint_of_nodup_append hnd
    have hnd1 : is.Nodup := (List.nodup_append.mp hnd).1
    have hnd2 : ((rest.map Prod.fst).flatten).Nodup :=
      (List.nodup_append.mp hnd).2.1
    intro pr hpr p hp
    rcases List.mem_cons.mp hpr with heq | hmem
    · subst heq
      simp only [scatter]
      rw [scatter_getElem?_not_mem rest _ ?hnot]
      · exact set_subset_getElem?_hit hnd1
          (hlen _ (List.mem_cons_self _ _))
          (hbound _ (List.mem_cons_self _ _)) p hp
      case hnot =>
        intro pr2 h2 hmem2
        exact hdisj (List.getElem_mem hp)
          (List.mem_flatten_of_mem (List.mem_map_of_mem Prod.fst h2) hmem2)
    · simp only [scatter]
      refine ih _ hnd2
        (fun pr2 h2 => hlen pr2 (List.mem_cons_of_mem _ h2)) ?_ pr hmem p hp
      intro pr2 h2 i hi
      rw [set_subset_length]
      exact hbound pr2 (List.mem_cons_of_mem _ h2) i hi

theorem diagonal_getElem? (m : List (List ℚ)) (i : ℕ) :
    (diagonal m)[i]? = (m[i]?).map (fun row => row.getD i 0) := by
  unfold diagonal
  rcases Nat.lt_or_ge i m.length with h | h
  · rw [List.getElem?_map, List.getElem?_range h, List.getElem?_eq_getElem h]
    simp [List.getElem?_eq_getElem h]
  · rw [List.getElem?_eq_none (by simpa using h),
      List.getElem?_eq_none h]
    rfl

theorem diagonal_length (m : List (List ℚ)) :
    (diagonal m).length = m.length := by
  simp [diagonal]

theorem fill_means_eq (means : List (String × List ℚ))
    (entries : List (String × List ℕ)) (pred : List ℚ)
    (hmatch : ∀ kv ∈ entries, ∃ v, List.lookup kv.1 means = some v ∧
      v.length = kv.2.length) :
    fill_means means entries pred =
      .ok (scatter (entries.map
          (fun kv => (kv.2, (List.lookup kv.1 means).getD []))) pred,
        (entries.map (fun kv => kv.2.length)).sum) := by
  induction entries generalizing pred with
  | nil => rfl
  | cons kv rest ih =>
    obtain ⟨k, idxs⟩ := kv
    obtain ⟨v, hv, hvlen⟩ := hmatch (k, idxs) (List.mem_cons_self _ _)
    simp only [fill_means, hv, hvlen, if_pos]
    rw [ih _ (fun kv h => hmatch kv (List.mem_cons_of_mem _ h))]
    simp [scatter, hv]

theorem fill_marginals_eq (preds : List (String × JointDist))
    (entries : List (String × List ℕ)) (m0 v0 : List ℚ)
    (hmatch : ∀ kv ∈ entries, ∃ d, List.lookup kv.1 preds = some d ∧
      d.size = kv.2.length) :
    fill_marginals preds entries (m0, v0) =
      .ok ((scatter (entries.map
            (fun kv => (kv.2, ((List.lookup kv.1 preds).elim []
              JointDist.mean)))) m0,
          scatter (entries.map
            (fun kv => (kv.2, ((List.lookup kv.1 preds).elim []
              (fun d => diagonal d.cov))))) v0),
        (entries.map (fun kv => kv.2.length)).sum) := by
  induction entries generalizing m0 v0 with
  | nil => rfl
  | cons kv rest ih =>
    obtain ⟨k, idxs⟩ := kv
    obtain ⟨d, hd, hdlen⟩ := hmatch (k, idxs) (List.mem_cons_self _ _)
    simp only [fill_marginals, hd, hdlen, if_pos]
    rw [ih _ _ (fun kv h => hmatch kv (List.mem_cons_of_mem _ h))]
    simp [scatter, hd]

theorem concatenate_mean_eq (indexer : List (String × List ℕ))
    (means : List (String × List ℚ)) (hm : indexer.length = means.length)
    (hmatch : ∀ kv ∈ indexer, ∃ v, List.lookup kv.1 means = some v ∧
      v.length = kv.2.length) :
    concatenate_mean_predictions indexer means =
      .ok (scatter (indexer.map
          (fun kv => (kv.2, (List.lookup kv.1 means).getD [])))
        (List.replicate (dataset_size_from_indexer indexer) 0)) := by
  simp only [concatenate_mean_predictions, if_pos hm]
  rw [fill_means_eq _ _ _ hmatch]
  simp [dataset_size_from_indexer]

theorem concatenate_marginal_eq (indexer : List (String × List ℕ))
    (preds : List (String × JointDist)) (hm : indexer.length = preds.length)
    (hmatch : ∀ kv ∈ indexer, ∃ d, List.lookup kv.1 preds = some d ∧
      d.size = kv.2.length) :
    concatenate_marginal_predictions indexer preds =
      .ok ⟨scatter (indexer.map
            (fun kv => (kv.2, ((List.lookup kv.1 preds).elim []
              JointDist.mean))))
          (List.replicate (dataset_size_from_indexer indexer) 0),
        scatter (indexer.map
            (fun kv => (kv.2, ((List.lookup kv.1 preds).elim []
              (fun d => diagonal d.cov)))))
          (List.replicate (dataset_size_from_indexer indexer) 0)⟩ := by
  simp only [concatenate_marginal_predictions, if_pos hm]
  rw [fill_marginals_eq _ _ _ _ hmatch]
  simp [dataset_size_from_indexer]

/-- C2: for every fold indexer whose index sets partition `[0, n)` and
per-fold prediction maps with matching keys and per-fold lengths, the
reassembly functions `concatenate_mean_predictions` and
`concatenate_marginal_predictions` write every original row index exactly
once, the total count of written rows equals the dataset size (so the fatal
consistency assert passes and the calls succeed), and the entry at each
original index equals the corresponding element of its fold's prediction. -/
theorem C2_concatenate_reassembles_partition
    (indexer : List (String × List ℕ)) (means : List (String × List ℚ))
    (preds : List (String × JointDist)) (n : ℕ)
    (hperm : ((indexer.map (fun kv => kv.2)).flatten).Perm (List.range n))
    (hm : means.length = indexer.length)
    (hp : preds.length = indexer.length)
    (hmatch : ∀ kv ∈ indexer, ∃ v, List.lookup kv.1 means = some v ∧
      v.length = kv.2.length)
    (hmatch2 : ∀ kv ∈ indexer, ∃ d, List.lookup kv.1 preds = some d ∧
      d.size = kv.2.length) :
    (∀ j, j < n → write_count indexer j = 1) ∧
    dataset_size_from_indexer indexer = n ∧
    (∃ pred, concatenate_mean_predictions indexer means = .ok pred ∧
      pred.length = n ∧
      ∀ kv ∈ indexer, ∀ v, List.lookup kv.1 means = some v →
        ∀ p, (hq : p < kv.2.length) → pred[kv.2[p]]? = v[p]?) ∧
    (∃ md, concatenate_marginal_predictions indexer preds = .ok md ∧
      md.mean.length = n ∧
      ∀ kv ∈ indexer, ∀ d, List.lookup kv.1 preds = some d →
        ∀ p, (hq : p < kv.2.length) → md.mean[kv.2[p]]? = d.mean[p]?) := by
  have hsize : dataset_size_from_indexer indexer = n := by
    have hlen := hperm.length_eq
    simp only [List.length_flatten, List.map_map, List.length_range] at hlen
    simpa [dataset_size_from_indexer, Function.comp] using hlen
  have hndflat : ((indexer.map (fun kv => kv.2)).flatten).Nodup :=
    hperm.nodup_iff.mpr (List.nodup_range n)
  have hboundflat : ∀ i ∈ (indexer.map (fun kv => kv.2)).flatten, i < n :=
    fun i hi => List.mem_range.mp (hperm.mem_iff.mp hi)
  have hcount : ∀ j, j < n → write_count indexer j = 1 := by
    intro j hj
    unfold write_count
    rw [hperm.count_eq]
    exact List.count_eq_one_of_mem (List.nodup_range n) (List.mem_range.mpr hj)
  refine ⟨hcount, hsize, ?_, ?_⟩
  · -- concatenate_mean_predictions
    have hfst : (indexer.map
          (fun kv => (kv.2, (List.lookup kv.1 means).getD []))).map Prod.fst
        = indexer.map (fun kv => kv.2) := by
      rw [List.map_map]; rfl
    have hlenpairs : ∀ pr ∈ indexer.map
        (fun kv => (kv.2, (List.lookup kv.1 means).getD [])),
        pr.2.length = pr.1.length := by
      intro pr hpr
      obtain ⟨kv, hkv, rfl⟩ := List.mem_map.mp hpr
      obtain ⟨v, hv, hvlen⟩ := hmatch kv hkv
      simp [hv, hvlen]
    have hboundpairs : ∀ pr ∈ indexer.map
        (fun kv => (kv.2, (List.lookup kv.1 means).getD [])),
        ∀ i ∈ pr.1, i <
          (List.replicate (dataset_size_from_indexer indexer) (0 : ℚ)).length := by
      intro pr hpr i hi
      obtain ⟨kv, hkv, rfl⟩ := List.mem_map.mp hpr
      rw [List.length_replicate, hsize]
      exact hboundflat i
        (List.mem_flatten_of_mem (List.mem_map_of_mem _ hkv) hi)
    have hscat := scatter_getElem?_hit _ _
      (by rw [hfst]; exact hndflat) hlenpairs hboundpairs
    refine ⟨_, concatenate_mean_eq indexer means hm.symm hmatch, ?_, ?_⟩
    · rw [scatter_length, List.length_replicate, hsize]
    · intro kv hkv v hv p hq
      have h2 := hscat _ (List.mem_map_of_mem _ hkv) p (by simpa using hq)
      simpa [hv] using h2
  · -- concatenate_marginal_predictions
    have hfst : (indexer.map
          (fun kv => (kv.2, ((List.lookup kv.1 preds).elim []
            JointDist.mean)))).map Prod.fst
        = indexer.map (fun kv => kv.2) := by
      rw [List.map_map]; rfl
    have hlenpairs : ∀ pr ∈ indexer.map
        (fun kv => (kv.2, ((List.lookup kv.1 preds).elim []
          JointDist.mean))),
        pr.2.length = pr.1.length := by
      intro pr hpr
      obtain ⟨kv, hkv, rfl⟩ := List.mem_map.mp hpr
      obtain ⟨d, hd, hdlen⟩ := hmatch2 kv hkv
      simpa [hd] using hdlen
    have hboundpairs : ∀ pr ∈ indexer.map
        (fun kv => (kv.2, ((List.lookup kv.1 preds).elim []
          JointDist.mean))),
        ∀ i ∈ pr.1, i <
          (List.replicate (dataset_size_from_indexer indexer) (0 : ℚ)).length := by
      intro pr hpr i hi
      obtain ⟨kv, hkv, rfl⟩ := List.mem_map.mp hpr
      rw [List.length_replicate, hsize]
      exact hboundflat i
        (List.mem_flatten_of_mem (List.mem_map_of_mem _ hkv) hi)
    have hscat := scatter_getElem?_hit _ _
      (by rw [hfst]; exact hndflat) hlenpairs hboundpairs
    refine ⟨_, concatenate_marginal_eq indexer preds hp.symm hmatch2, ?_, ?_⟩
    · rw [scatter_length, List.length_replicate, hsize]
    · intro kv hkv d hd p hq
      have h2 := hscat _ (List.mem_map_of_mem _ hkv) p (by simpa using hq)
      simpa [hd] using h2

/-- Witness for C2 at a concrete two-fold partition of three rows. -/
theorem C2_concatenate_reassembles_partition_witness :
    write_count [("a", [0]), ("b", [1, 2])] 2 = 1 ∧
    dataset_size_from_indexer [("a", [0]), ("b", [1, 2])] = 3 ∧
    (∃ pred, concatenate_mean_predictions [("a", [0]), ("b", [1, 2])]
        [("a", [5]), ("b", [6, 7])] = .ok pred ∧ pred.length = 3) ∧
    (∃ md, concatenate_marginal_predictions [("a", [0]), ("b", [1, 2])]
        [("a", ⟨[5], [[2]]⟩), ("b", ⟨[6, 7], [[1, 0], [0, 3]]⟩)] = .ok md ∧
      md.mean.length = 3) := by
  have h := C2_concatenate_reassembles_partition
    [("a", [0]), ("b", [1, 2])]
    [("a", [5]), ("b", [6, 7])]
    [("a", ⟨[5], [[2]]⟩), ("b", ⟨[6, 7], [[1, 0], [0, 3]]⟩)] 3
    (by decide) rfl rfl
    (by
      intro kv hkv
      rcases List.mem_cons.mp hkv with rfl | hkv2
      · exact ⟨[5], rfl, rfl⟩
      · rcases List.mem_cons.mp hkv2 with rfl | h3
        · exact ⟨[6, 7], rfl, rfl⟩
        · exact absurd h3 (by simp))
    (by
      intro kv hkv
      rcases List.mem_cons.mp hkv with rfl | hkv2
      · exact ⟨⟨[5], [[2]]⟩, rfl, rfl⟩
      · rcases List.mem_cons.mp hkv2 with rfl | h3
        · exact ⟨⟨[6, 7], [[1, 0], [0, 3]]⟩, rfl, rfl⟩
        · exact absurd h3 (by simp))
  obtain ⟨hc, hs, ⟨pred, hpred, hplen, _⟩, ⟨md, hmd, hmlen, _⟩⟩ := h
  exact ⟨hc 2 (by decide), hs, ⟨pred, hpred, hplen⟩, ⟨md, hmd, hmlen⟩⟩

/-- C9: marginal reassembly of per-fold predictions yields a marginal
distribution whose variance at each original index is the corresponding
diagonal entry of that fold's prediction covariance; every cross-fold
off-diagonal term of the per-fold covariances is dropped by construction. -/
theorem C9_marginal_reassembly_takes_diagonal
    (indexer : List (String × List ℕ)) (preds : List (String × JointDist))
    (n : ℕ)
    (hperm : ((indexer.map (fun kv => kv.2)).flatten).Perm (List.range n))
    (hp : preds.length = indexer.length)
    (hmatch2 : ∀ kv ∈ indexer, ∃ d, List.lookup kv.1 preds = some d ∧
      d.size = kv.2.length)
    (hsq : ∀ kv ∈ indexer, ∀ d, List.lookup kv.1 preds = some d →
      d.cov.length = d.mean.length) :
    ∃ md, concatenate_marginal_predictions indexer preds = .ok md ∧
      md.variance.length = n ∧
      ∀ kv ∈ indexer, ∀ d, List.lookup kv.1 preds = some d →
        ∀ p, (hq : p < kv.2.length) →
          md.variance[kv.2[p]]? = some ((d.cov.getD p []).getD p 0) := by
  have hsize : dataset_size_from_indexer indexer = n := by
    have hlen := hperm.length_eq
    simp only [List.length_flatten, List.map_map, List.length_range] at hlen
    simpa [dataset_size_from_indexer, Function.comp] using hlen
  have hndflat : ((indexer.map (fun kv => kv.2)).flatten).Nodup :=
    hperm.nodup_iff.mpr (List.nodup_range n)
  have hboundflat : ∀ i ∈ (indexer.map (fun kv => kv.2)).flatten, i < n :=
    fun i hi => List.mem_range.mp (hperm.mem_iff.mp hi)
  have hfst : (indexer.map
        (fun kv => (kv.2, ((List.lookup kv.1 preds).elim []
          (fun d => diagonal d.cov))))).map Prod.fst
      = indexer.map (fun kv => kv.2) := by
    rw [List.map_map]; rfl
  have hlenpairs : ∀ pr ∈ indexer.map
      (fun kv => (kv.2, ((List.lookup kv.1 preds).elim []
        (fun d => diagonal d.cov)))),
      pr.2.length = pr.1.length := by
    intro pr hpr
    obtain ⟨kv, hkv, rfl⟩ := List.mem_map.mp hpr
    obtain ⟨d, hd, hdlen⟩ := hmatch2 kv hkv
    have := hsq kv hkv d hd
    simp only [hd, Option.elim, diagonal_length]
    rw [this]
    exact hdlen
  have hboundpairs : ∀ pr ∈ indexer.map
      (fun kv => (kv.2, ((List.lookup kv.1 preds).elim []
        (fun d => diagonal d.cov)))),
      ∀ i ∈ pr.1, i <
        (List.replicate (dataset_size_from_indexer indexer) (0 : ℚ)).length := by
    intro pr hpr i hi
    obtain ⟨kv, hkv, rfl⟩ := List.mem_map.mp hpr
    rw [List.length_replicate, hsize]
    exact hboundflat i
      (List.mem_flatten_of_mem (List.mem_map_of_mem _ hkv) hi)
  have hscat := scatter_getElem?_hit _ _
    (by rw [hfst]; exact hndflat) hlenpairs hboundpairs
  refine ⟨_, concatenate_marginal_eq indexer preds hp.symm hmatch2, ?_, ?_⟩
  · rw [scatter_length, List.length_replicate, hsize]
  · intro kv hkv d hd p hq
    have h2 := hscat _ (List.mem_map_of_mem _ hkv) p (by simpa using hq)
    obtain ⟨d2, hd2, hdlen⟩ := hmatch2 kv hkv
    rw [hd] at hd2
    cases hd2
    have hpcov : p < d.cov.length := by
      rw [hsq kv hkv d hd]
      calc p < kv.2.length := hq
        _ = d.mean.length := hdlen.symm
    dsimp only at h2 ⊢
    rw [hd, Option.elim_some] at h2
    rw [h2, diagonal_getElem?, List.getElem?_eq_getElem hpcov]
    simp [List.getD_eq_getElem?_getD, List.getElem?_eq_getElem hpcov]

/-- Witness for C9: the reassembled variance picks the diagonal entries 1 and
3 of fold `b`'s covariance and ignores its off-diagonal entries 9 and 8. -/
theorem C9_marginal_reassembly_takes_diagonal_witness :
    ∃ md, concatenate_marginal_predictions [("a", [0]), ("b", [1, 2])]
        [("a", ⟨[5], [[2]]⟩), ("b", ⟨[6, 7], [[1, 9], [8, 3]]⟩)] = .ok md ∧
      md.variance.length = 3 ∧
      md.variance[1]? = some 1 ∧ md.variance[2]? = some 3 := by
  have h := C9_marginal_reassembly_takes_diagonal
    [("a", [0]), ("b", [1, 2])]
    [("a", ⟨[5], [[2]]⟩), ("b", ⟨[6, 7], [[1, 9], [8, 3]]⟩)] 3
    (by decide) rfl
    (by
      intro kv hkv
      rcases List.mem_cons.mp hkv with rfl | hkv2
      · exact ⟨⟨[5], [[2]]⟩, rfl, rfl⟩
      · rcases List.mem_cons.mp hkv2 with rfl | h3
        · exact ⟨⟨[6, 7], [[1, 9], [8, 3]]⟩, rfl, rfl⟩
        · exact absurd h3 (by simp))
    (by
      intro kv hkv d hd
      rcases List.mem_cons.mp hkv with rfl | hkv2
      · have h4 : (some (⟨[5], [[2]]⟩ : JointDist)) = some d := hd
        rw [← Option.some.inj h4]
        rfl
      · rcases List.mem_cons.mp hkv2 with rfl | h3
        · have h4 : (some (⟨[6, 7], [[1, 9], [8, 3]]⟩ : JointDist)) = some d := hd
          rw [← Option.some.inj h4]
          rfl
        · exact absurd h3 (by simp))
  obtain ⟨md, hmd, hlen2, hval⟩ := h
  refine ⟨md, hmd, hlen2, ?_, ?_⟩
  · have h5 := hval ("b", [1, 2]) (by simp) ⟨[6, 7], [[1, 9], [8, 3]]⟩ rfl
      0 (by decide)
    simpa using h5
  · have h5 := hval ("b", [1, 2]) (by simp) ⟨[6, 7], [[1, 9], [8, 3]]⟩ rfl
      1 (by decide)
    simpa using h5

/-- C3: for every model providing only a joint prediction, the default-derived
marginal prediction has the joint's mean and, elementwise, the diagonal of the
joint covariance as its variance; the default-derived mean prediction is the
joint's mean. -/
theorem C3_default_marginal_is_joint_diagonal {F S : Type}
    (predictImpl : S → List F → JointDist) (s : S) (features : List F) :
    (predict_marginal_default predictImpl s features).mean =
      (predictImpl s features).mean ∧
    predict_mean_default predictImpl s features =
      (predictImpl s features).mean ∧
    (predict_marginal_default predictImpl s features).variance.length =
      (predictImpl s features).cov.length ∧
    ∀ i, (predict_marginal_default predictImpl s features).variance[i]? =
      ((predictImpl s features).cov[i]?).map
        (fun (row : List ℚ) => row.getD i 0) :=
  ⟨rfl, rfl, diagonal_length _, fun i => diagonal_getElem? _ i⟩

/-- C4: `RegressionModel::fit` fails on an empty feature sequence, fails on
mismatched feature/target lengths, and otherwise stores the fit state produced
by the implementation `fit_` and marks the model as fit. -/
theorem C4_fit_precondition_checks {F S : Type}
    (fitImpl : List F → MarginalDist → S) (features : List F)
    (targets : MarginalDist) :
    (features.length = 0 →
      (RegressionModel.fit fitImpl features targets).isOk = false) ∧
    (features.length ≠ targets.size →
      (RegressionModel.fit fitImpl features targets).isOk = false) ∧
    (features.length ≠ 0 → features.length = targets.size →
      RegressionModel.fit fitImpl features targets =
        .ok (some (fitImpl features targets)) ∧
      has_been_fit (some (fitImpl features targets)) = true) := by
  unfold RegressionModel.fit
  refine ⟨?_, ?_, ?_⟩
  · intro h; rw [if_pos h]; rfl
  · intro h
    by_cases h0 : features.length = 0
    · rw [if_pos h0]; rfl
    · rw [if_neg h0, if_pos h]; rfl
  · intro h0 heq
    rw [if_neg h0, if_neg (fun hne => hne heq)]
    exact ⟨rfl, rfl⟩

/-- Witness for C4 at concrete inputs: empty features fail, mismatched
lengths fail, and a well-formed call stores the implementation's fit state. -/
theorem C4_fit_precondition_checks_witness :
    (RegressionModel.fit (fun (fs : List ℚ) (_ : MarginalDist) => fs.length)
      [] ⟨[], []⟩).isOk = false ∧
    (RegressionModel.fit (fun (fs : List ℚ) (_ : MarginalDist) => fs.length)
      [1] ⟨[2, 3], [1, 1]⟩).isOk = false ∧
    RegressionModel.fit (fun (fs : List ℚ) (_ : MarginalDist) => fs.length)
      [1, 2] ⟨[3, 4], [1, 1]⟩ = .ok (some 2) ∧
    has_been_fit (some 2) = true := by
  have h1 := C4_fit_precondition_checks
    (fun (fs : List ℚ) (_ : MarginalDist) => fs.length) [] ⟨[], []⟩
  have h2 := C4_fit_precondition_checks
    (fun (fs : List ℚ) (_ : MarginalDist) => fs.length) [1] ⟨[2, 3], [1, 1]⟩
  have h3 := C4_fit_precondition_checks
    (fun (fs : List ℚ) (_ : MarginalDist) => fs.length) [1, 2]
    ⟨[3, 4], [1, 1]⟩
  refine ⟨h1.1 rfl, h2.2.1 (by decide), ?_, ?_⟩
  · exact (h3.2.2 (by decide) (by decide)).1
  · rfl

/-- C5: for every fidelity (mean, marginal, joint), the `predict` wrapper
fails when the model has not been fit, on success returns as many elements as
query features, and treats an implementation returning the wrong length as a
fatal failure. -/
theorem C5_predict_requires_fit_and_size {F S : Type}
    (jointImpl : S → List F → JointDist)
    (marginalImpl : S → List F → MarginalDist)
    (meanImpl : S → List F → List ℚ) (features : List F) :
    ((RegressionModel.predict_joint jointImpl none features).isOk = false ∧
     (RegressionModel.predict_marginal marginalImpl none features).isOk =
       false ∧
     (RegressionModel.predict_mean meanImpl none features).isOk = false) ∧
    (∀ s : S,
      (∀ d, RegressionModel.predict_joint jointImpl (some s) features =
          .ok d → d.mean.length = features.length) ∧
      (∀ d, RegressionModel.predict_marginal marginalImpl (some s) features =
          .ok d → d.mean.length = features.length) ∧
      (∀ v, RegressionModel.predict_mean meanImpl (some s) features =
          .ok v → v.length = features.length)) ∧
    (∀ s : S,
      ((jointImpl s features).mean.length ≠ features.length →
        (RegressionModel.predict_joint jointImpl (some s) features).isOk =
          false) ∧
      ((marginalImpl s features).mean.length ≠ features.length →
        (RegressionModel.predict_marginal marginalImpl (some s)
          features).isOk = false) ∧
      ((meanImpl s features).length ≠ features.length →
        (RegressionModel.predict_mean meanImpl (some s) features).isOk =
          false)) := by
  refine ⟨⟨rfl, rfl, rfl⟩, ?_, ?_⟩
  · intro s
    refine ⟨?_, ?_, ?_⟩
    · intro d h
      simp only [RegressionModel.predict_joint] at h
      by_cases hc : (jointImpl s features).mean.length = features.length
      · rw [if_pos hc] at h
        injection h with h2
        rw [← h2]
        exact hc
      · rw [if_neg hc] at h
        cases h
    · intro d h
      simp only [RegressionModel.predict_marginal] at h
      by_cases hc : (marginalImpl s features).mean.length = features.length
      · rw [if_pos hc] at h
        injection h with h2
        rw [← h2]
        exact hc
      · rw [if_neg hc] at h
        cases h
    · intro v h
      simp only [RegressionModel.predict_mean] at h
      by_cases hc : (meanImpl s features).length = features.length
      · rw [if_pos hc] at h
        injection h with h2
        rw [← h2]
        exact hc
      · rw [if_neg hc] at h
        cases h
  · intro s
    refine ⟨?_, ?_, ?_⟩
    · intro hc
      simp only [RegressionModel.predict_joint]
      rw [if_neg hc]
      rfl
    · intro hc
      simp only [RegressionModel.predict_marginal]
      rw [if_neg hc]
      rfl
    · intro hc
      simp only [RegressionModel.predict_mean]
      rw [if_neg hc]
      rfl

/-- Witness for C5 at concrete inputs: an unfit model fails, a correctly
sized joint implementation yields a matching length, and a wrongly sized mean
implementation is rejected. -/
theorem C5_predict_requires_fit_and_size_witness :
    (RegressionModel.predict_joint
      (fun (_ : Unit) (fs : List ℚ) => (⟨fs.map (fun _ => 0), []⟩ : JointDist))
      none [1, 2]).isOk = false ∧
    (⟨[0, 0], []⟩ : JointDist).mean.length = ([1, 2] : List ℚ).length ∧
    (RegressionModel.predict_mean (fun (_ : Unit) (_ : List ℚ) => [0])
      (some ()) [1, 2]).isOk = false := by
  have h := C5_predict_requires_fit_and_size
    (fun (_ : Unit) (fs : List ℚ) => (⟨fs.map (fun _ => 0), []⟩ : JointDist))
    (fun (_ : Unit) (fs : List ℚ) =>
      (⟨fs.map (fun _ => 0), fs.map (fun _ => 1)⟩ : MarginalDist))
    (fun (_ : Unit) (_ : List ℚ) => [0]) [1, 2]
  refine ⟨h.1.1, ?_, ?_⟩
  · exact (h.2.1 ()).1 ⟨[0, 0], []⟩ rfl
  · exact (h.2.2 ()).2.2 (by decide)

/-- Counterexample for C7: comparing an unfit left-hand model against a
right-hand model that HAS been fit does not fail fatally — the comparison is
defined and returns `false` — because `operator==` asserts only
`!this->has_been_fit()`. -/
theorem C7_counterexample_fit_rhs_comparison_defined :
    (⟨"m", [], true⟩ : ModelInfo).has_been_fit = true ∧
    model_operator_eq ⟨"m", [], false⟩ ⟨"m", [], true⟩ = .ok false ∧
    (model_operator_eq ⟨"m", [], false⟩ ⟨"m", [], true⟩).isOk = true :=
  ⟨rfl, rfl, rfl⟩

/-- C7 (amended): model equality fails fatally exactly when the left-hand
operand has been fit; when the left-hand operand is unfit the comparison is
defined — even against a fit right-hand operand — and returns true exactly
when names, parameter maps, and fit flags agree. -/
theorem C7_operator_eq_defined_iff_lhs_unfit (a b : ModelInfo) :
    (a.has_been_fit = true → (model_operator_eq a b).isOk = false) ∧
    (a.has_been_fit = false →
      ((model_operator_eq a b = .ok true) ↔
        (a.name = b.name ∧ a.params = b.params ∧
          a.has_been_fit = b.has_been_fit))) := by
  unfold model_operator_eq
  constructor
  · intro h
    rw [if_pos h]
    rfl
  · intro h
    rw [if_neg (by rw [h]; exact Bool.false_ne_true)]
    constructor
    · intro heq
      injection heq with h2
      have h7 : (a.name = b.name ∧ a.params = b.params) ∧
          a.has_been_fit = b.has_been_fit := by
        simpa [Bool.and_eq_true, decide_eq_true_iff, beq_iff_eq] using h2
      exact ⟨h7.1.1, h7.1.2, h7.2⟩
    · intro h3
      obtain ⟨h4, h5, h6⟩ := h3
      simp [h4, h5, h6]

/-- Witness for C7's amended statement: a fit left operand fails, and two
equal unfit models compare equal. -/
theorem C7_operator_eq_defined_iff_lhs_unfit_witness :
    (model_operator_eq ⟨"m", [("p", 1)], true⟩
      ⟨"m", [("p", 1)], true⟩).isOk = false ∧
    model_operator_eq ⟨"m", [], false⟩ ⟨"m", [], false⟩ = .ok true := by
  have h1 := C7_operator_eq_defined_iff_lhs_unfit
    ⟨"m", [("p", 1)], true⟩ ⟨"m", [("p", 1)], true⟩
  have h2 := C7_operator_eq_defined_iff_lhs_unfit
    ⟨"m", [], false⟩ ⟨"m", [], false⟩
  exact ⟨h1.1 rfl, (h2.2 rfl).mpr ⟨rfl, rfl, rfl⟩⟩

/-- C8 (explicit-argument overload): the default `fit_and_predict` is the
composition of a `fit` call and a `predict` call on the resulting model
state; the fold-taking overload cannot be embedded because it reads
`fold.train` and `fold.test`, members `RegressionFold` does not declare. -/
theorem C8_fit_and_predict_is_fit_then_predict {F S : Type}
    (fitImpl : List F → MarginalDist → S)
    (predictImpl : S → List F → JointDist)
    (train_features : List F) (train_targets : MarginalDist)
    (test_features : List F) :
    fit_and_predict fitImpl predictImpl train_features train_targets
        test_features =
      fit_then_predict fitImpl predictImpl train_features train_targets
        test_features := by
  unfold fit_and_predict fit_then_predict
  cases RegressionModel.fit fitImpl train_features train_targets with
  | error e => rfl
  | ok st => rfl

/-- C10: `cross_validated_scores` checks each fold's prediction size against
that fold's test-dataset size before scoring it (a mismatch anywhere is
fatal); each fold's score is the metric applied to that fold's prediction and
that fold's test targets, and the scores come back as a vector in fold
order. -/
theorem C10_cross_validated_scores_per_fold {F P : Type} (psize : P → ℕ)
    (metric : P → MarginalDist → ℚ)
    (folds : List (String × RegressionFold F))
    (predictions : List (String × P)) :
    ((∀ kf ∈ folds, ∃ p, List.lookup kf.1 predictions = some p ∧
        psize p = kf.2.test_dataset.size) →
      ∃ scores, cross_validated_scores psize metric folds predictions =
          .ok scores ∧
        scores.length = folds.length ∧
        ∀ i, (hi : i < folds.length) → ∀ p,
          List.lookup (folds[i]).1 predictions = some p →
            scores[i]? = some (metric p (folds[i]).2.test_dataset.targets)) ∧
    ((∃ kf ∈ folds, ∀ p, List.lookup kf.1 predictions = some p →
        psize p ≠ kf.2.test_dataset.size) →
      (cross_validated_scores psize metric folds predictions).isOk =
        false) := by
  constructor
  · induction folds with
    | nil =>
      intro _
      exact ⟨[], rfl, rfl, fun i hi => absurd hi (by simp)⟩
    | cons kf rest ih =>
      intro h
      obtain ⟨p, hp, hpsize⟩ := h kf (List.mem_cons_self _ _)
      obtain ⟨scores, hs, hslen, hsval⟩ :=
        ih (fun kf2 h2 => h kf2 (List.mem_cons_of_mem _ h2))
      obtain ⟨k, fold⟩ := kf
      refine ⟨metric p fold.test_dataset.targets :: scores, ?_,
        by simp [hslen], ?_⟩
      · simp only [cross_validated_scores, hp]
        rw [if_pos hpsize, hs]
      · intro i hi p2 hp2
        cases i with
        | zero =>
          simp only [List.getElem_cons_zero] at hp2
          rw [hp] at hp2
          injection hp2 with h3
          subst h3
          simp
        | succ i =>
          simp only [List.getElem_cons_succ] at hp2
          simp only [List.getElem?_cons_succ]
          exact hsval i (by simpa using hi) p2 hp2
  · induction folds with
    | nil =>
      rintro ⟨kf, hkf, _⟩
      exact absurd hkf (by simp)
    | cons kf2 rest ih =>
      rintro ⟨kf, hkf, hbad⟩
      obtain ⟨k, fold⟩ := kf2
      cases hlk : List.lookup k predictions with
      | none =>
        simp only [cross_validated_scores, hlk]
        rfl
      | some p =>
        simp only [cross_validated_scores, hlk]
        by_cases hc : psize p = fold.test_dataset.size
        · rw [if_pos hc]
          rcases List.mem_cons.mp hkf with heq | hmem
          · subst heq
            exact absurd hc (hbad p hlk)
          · have hrec := ih ⟨kf, hmem, hbad⟩
            cases hr : cross_validated_scores psize metric rest
                predictions with
            | ok s =>
              rw [hr] at hrec
              exact Bool.noConfusion hrec
            | error e => rfl
        · rw [if_neg hc]
          rfl

/-- Witness for C10 at a concrete fold list: matching sizes succeed with one
score per fold in fold order, and a size mismatch is fatal. -/
theorem C10_cross_validated_scores_per_fold_witness :
    (∃ scores, cross_validated_scores (fun (v : List ℚ) => v.length)
        (fun _ _ => 7) demo_folds [("a", [0]), ("b", [0, 0])] =
          .ok scores ∧
      scores.length = 2) ∧
    (cross_validated_scores (fun (v : List ℚ) => v.length)
      (fun _ _ => 7) demo_folds [("a", [0, 0]), ("b", [0])]).isOk = false := by
  have h := C10_cross_validated_scores_per_fold
    (fun (v : List ℚ) => v.length) (fun _ _ => 7) demo_folds
    [("a", [0]), ("b", [0, 0])]
  have h2 := C10_cross_validated_scores_per_fold
    (fun (v : List ℚ) => v.length) (fun _ _ => 7) demo_folds
    [("a", [0, 0]), ("b", [0])]
  constructor
  · obtain ⟨scores, hsc, hlen, _⟩ := h.1 (by
      intro kf hkf
      rcases List.mem_cons.mp hkf with rfl | hkf2
      · exact ⟨[0], rfl, rfl⟩
      · rcases List.mem_cons.mp hkf2 with rfl | h3
        · exact ⟨[0, 0], rfl, rfl⟩
        · exact absurd h3 (by simp))
    exact ⟨scores, hsc, hlen⟩
  · refine h2.2 ⟨("a", ⟨⟨[20, 30], ⟨[2, 3], [1, 1]⟩, []⟩,
      ⟨[10], ⟨[1], [1]⟩, []⟩, "a", [0]⟩), by simp [demo_folds], ?_⟩
    intro p hp
    have h4 : (some ([0, 0] : List ℚ)) = some p := hp
    rw [← Option.some.inj h4]
    decide

/-- C1: the source's `get_predictions` predicts on each fold's
`train_dataset.features` instead of its `test_dataset` features.  Evaluated
at a concrete two-fold partition of three rows, fold `a` (one test row, two
train rows) receives a two-element prediction, so feeding the result to
`cross_validated_scores` trips its fatal size assert. -/
theorem C1_get_predictions_predicts_on_train_features :
    get_predictions zeroModel demo_folds = [("a", [0, 0]), ("b", [0])] ∧
    demo_folds.map (fun kv => kv.2.test_dataset.size) = [1, 2] ∧
    (cross_validated_scores (fun (v : List ℚ) => v.length) (fun _ _ => 0)
      demo_folds (get_predictions zeroModel demo_folds)).isOk = false :=
  ⟨rfl, rfl, rfl⟩

/-- C6: a candidate parameter vector outside its priors' support yields an
invalid (`none`) objective; the loop treats such a candidate as rejected and
continues unchanged; and from a valid (boundary-adjacent) start, tuning
terminates with parameters that still satisfy every prior, whatever invalid
proposals were seen along the way. -/
theorem C6_tuning_rejects_invalid_keeps_valid (priors : List Prior)
    (cvMetric : List ℚ → ℚ) (init : List ℚ)
    (proposals : List (List ℚ)) :
    (∀ cand, params_are_valid priors cand = false →
      tune_objective priors cvMetric cand = none) ∧
    (∀ state cand, tune_objective priors cvMetric cand = none →
      tune_best (tune_objective priors cvMetric) state cand = state) ∧
    (params_are_valid priors init = true →
      params_are_valid priors (tune priors cvMetric init proposals) =
        true) := by
  have hvalid_of_some : ∀ c s, tune_objective priors cvMetric c = some s →
      params_are_valid priors c = true := by
    intro c s h
    unfold tune_objective at h
    by_cases hv : params_are_valid priors c = true
    · exact hv
    · rw [Bool.not_eq_true] at hv
      simp [hv] at h
  refine ⟨?_, ?_, ?_⟩
  · intro cand h
    unfold tune_objective
    simp [h]
  · intro state cand h
    unfold tune_best
    rw [h]
  · intro hinit
    unfold tune
    have key : ∀ (props : List (List ℚ)) (st : List ℚ × Option ℚ),
        params_are_valid priors st.1 = true →
        params_are_valid priors
          ((props.foldl (tune_best (tune_objective priors cvMetric))
            st).1) = true := by
      intro props
      induction props with
      | nil => intro st h; exact h
      | cons c cs ih =>
        intro st h
        rw [List.foldl_cons]
        apply ih
        unfold tune_best
        cases hc : tune_objective priors cvMetric c with
        | none => exact h
        | some s =>
          cases st.2 with
          | none => exact hvalid_of_some c s hc
          | some b =>
            dsimp only
            by_cases hlt : s < b
            · rw [if_pos hlt]
              exact hvalid_of_some c s hc
            · rw [if_neg hlt]
              exact h
    exact key proposals (init, tune_objective priors cvMetric init) hinit

/-- Witness for C6: with a positivity prior and a boundary-adjacent start,
an invalid proposal yields a `none` objective and the final parameters still
satisfy the prior. -/
theorem C6_tuning_rejects_invalid_keeps_valid_witness :
    tune_objective [PositivePrior] (fun _ => 0) [-1] = none ∧
    params_are_valid [PositivePrior]
      (tune [PositivePrior] (fun _ => 0) [1 / 100000000] [[-1], [2]]) =
      true := by
  have h := C6_tuning_rejects_invalid_keeps_valid [PositivePrior]
    (fun _ => 0) [1 / 100000000] [[-1], [2]]
  refine ⟨h.1 [-1] ?_, h.2.2 ?_⟩
  · simp [params_are_valid, PositivePrior]
  · simp [params_are_valid, PositivePrior]

end Albatross
